import Mathlib

/-!
Verification of the referral-payout backend's moderation + ledger core.

Shallow embedding of `src/backend/main.py` (routes `create_user`,
`public_submit`, `approve_pending`, `deny_pending`, `update_user_status`,
`delete_user`, `create_tx`, `tx_by_user`, `pay`), of the SQLAlchemy models in
`src/backend/models.py` (`User`, `TxLog`, and main.py's `PendingUser`), and of
`admin_create_user` from `src/backend/users.py`.

Modelling conventions:
- The database is a record of three lists (users, pending, txlogs) plus
  autoincrement counters; `db.add` appends, `db.delete` erases the first
  matching row, a SQLAlchemy `first()` query is `List.find?`.
- Python floats carrying money amounts are modelled as `Rat`: every claim is
  about the additive structure of the code (one addition per successful
  record), which the embedding preserves exactly.
- Nullable columns (`nick`, `email`, `wallet`, `network` on `users`) are
  `Option String`; SQL `col = 'v'` on a NULL row is false, matching
  `Option` equality against `some v`.
- An HTTPException is an `ApiError` value carrying the HTTP status code and
  detail string. The spec's taxonomy maps NotFound to 404, Conflict to the
  duplicate rejections (400 in `create_user`, 409 in `public_submit`),
  InvalidArgument to 400.
- `uuid` synthesis in `pay` is nondeterministic, so the fresh hash is an
  explicit argument.
- A request handler is a pure function `DB → args → Except ApiError (result × DB)`;
  an error leaves the state unchanged (in the source every raise happens
  before any mutation of the session, and the single `db.commit` per handler
  makes the mutation all-or-nothing).
-/

/-- Update the first element satisfying `p` (SQLAlchemy: mutate the object
returned by `.first()` and commit). -/
def updateFirst (p : α → Bool) (f : α → α) : List α → List α
  | [] => []
  | x :: xs => if p x then f x :: xs else x :: updateFirst p f xs

/-- Row of the `users` table (`models.py`). `total_paid` has column default
0.0 and `status` column default "approved". -/
structure User where
  id : Nat
  user_id : String
  nick : Option String
  email : Option String
  wallet : Option String
  network : Option String
  total_paid : Rat
  status : String
deriving DecidableEq

/-- Row of the `pending_users` table (defined inline in `main.py`). -/
structure PendingUser where
  id : Nat
  user_id : String
  nick : String
  email : String
  wallet : String
  network : String
deriving DecidableEq

/-- Row of the `txlogs` table (`models.py`). -/
structure TxLog where
  id : Nat
  user_id : String
  amount : Rat
  status : String
  tx_hash : String
  network : String
  meta : Option String
deriving DecidableEq

/-- The three relations plus autoincrement primary-key counters. -/
structure DB where
  users : List User
  pending : List PendingUser
  txlogs : List TxLog
  nextUserId : Nat
  nextPendingId : Nat
  nextTxId : Nat
deriving DecidableEq

def emptyDB : DB := ⟨[], [], [], 1, 1, 1⟩

/-- An HTTPException: status code and detail. -/
structure ApiError where
  statusCode : Nat
  detail : String
deriving DecidableEq

/-- `schemas.UserCreate` (main.py schema set): all fields required strings. -/
structure UserCreate where
  user_id : String
  nick : String
  email : String
  wallet : String
  network : String
deriving DecidableEq

/-- `schemas.TxCreate`: all fields required except the optional `meta`. -/
structure TxCreate where
  user_id : String
  amount : Rat
  status : String
  tx_hash : String
  network : String
  meta : Option String := none
deriving DecidableEq

/-- `schemas.PayIn`: `tx_hash` defaults to `""` and `status` to `"success"`. -/
structure PayIn where
  user_id : String
  amount : Rat
  network : String
  tx_hash : String := ""
  status : String := "success"
deriving DecidableEq

/-- `users.py` `UserCreate` schema: optional profile fields, status defaults
to `"approved"`. -/
structure AdminUserCreate where
  user_id : String
  nick : Option String := none
  email : Option String := none
  wallet : Option String := none
  network : Option String := none
  status : String := "approved"
deriving DecidableEq

/-- Post-state of a handler: the new DB on success, the old DB on error (no
partial effect; see the module comment). -/
def dbAfter (db : DB) : Except ApiError (α × DB) → DB
  | .ok (_, db') => db'
  | .error _ => db

def isOkE : Except ApiError α → Bool
  | .ok _ => true
  | .error _ => false

/-- The HTTP status code of a failed call, `none` on success. -/
def errCode : Except ApiError α → Option Nat
  | .ok _ => none
  | .error e => some e.statusCode

/-- Post-state of the pay handler (its result is a triple). -/
def payDBAfter (db : DB) : Except ApiError (TxLog × Rat × DB) → DB
  | .ok (_, _, db') => db'
  | .error _ => db

/-- Status stored on the row created by the log variant. -/
def txStatusOf : Except ApiError (TxLog × DB) → Option String
  | .ok (l, _) => some l.status
  | .error _ => none

/-- `db.query(User).filter(User.user_id == uid).first()`. -/
def findUser (db : DB) (uid : String) : Option User :=
  db.users.find? (fun x => x.user_id == uid)

/-- `or_(User.user_id == uid, User.email == email)` duplicate probe used by
`create_user`, `public_submit` and `approve_pending`. -/
def dupUserExists (db : DB) (uid email : String) : Bool :=
  (db.users.find? (fun x => x.user_id == uid || x.email == some email)).isSome

/-- POST /users (`main.py` `create_user`): reject when a user with the same
`user_id` or `email` exists, else insert with defaults
`total_paid = 0`, `status = "approved"`. -/
def create_user (db : DB) (u : UserCreate) : Except ApiError (User × DB) :=
  if dupUserExists db u.user_id u.email then
    .error ⟨400, "User ID or email already exists"⟩
  else
    let user : User := { id := db.nextUserId, user_id := u.user_id, nick := some u.nick,
                         email := some u.email, wallet := some u.wallet, network := some u.network,
                         total_paid := 0, status := "approved" }
    .ok (user, { db with users := db.users ++ [user], nextUserId := db.nextUserId + 1 })

/-- POST /users/public (`main.py` `public_submit`): 409 when any user matches
`user_id` or `email`; else upsert the pending row keyed on `user_id`. -/
def public_submit (db : DB) (u : UserCreate) : Except ApiError (Unit × DB) :=
  if dupUserExists db u.user_id u.email then
    .error ⟨409, "User already exists"⟩
  else if (db.pending.find? (fun q => q.user_id == u.user_id)).isSome then
    let pending' := updateFirst (fun q => q.user_id == u.user_id)
      (fun q => { q with nick := u.nick, email := u.email, wallet := u.wallet,
                         network := u.network }) db.pending
    .ok ((), { db with pending := pending' })
  else
    let row : PendingUser := { id := db.nextPendingId, user_id := u.user_id, nick := u.nick,
                               email := u.email, wallet := u.wallet, network := u.network }
    .ok ((), { db with pending := db.pending ++ [row],
                       nextPendingId := db.nextPendingId + 1 })

/-- Result of POST /users/pending/:id/approve. -/
inductive ApproveOutcome where
  | alreadyPresent
  | created (u : User)
deriving DecidableEq

/-- POST /users/pending/:id/approve (`main.py` `approve_pending`). -/
def approve_pending (db : DB) (uid : String) : Except ApiError (ApproveOutcome × DB) :=
  match db.pending.find? (fun q => q.user_id == uid) with
  | none => .error ⟨404, "Not found"⟩
  | some p =>
    if dupUserExists db p.user_id p.email then
      .ok (.alreadyPresent, { db with pending := db.pending.eraseP (fun q => q.user_id == uid) })
    else
      let user : User := { id := db.nextUserId, user_id := p.user_id, nick := some p.nick,
                           email := some p.email, wallet := some p.wallet,
                           network := some p.network, total_paid := 0, status := "approved" }
      let db' : DB := { db with users := db.users ++ [user],
                                pending := db.pending.eraseP (fun q => q.user_id == uid),
                                nextUserId := db.nextUserId + 1 }
      .ok (.created user, db')

/-- POST /users/pending/:id/deny (`main.py` `deny_pending`). -/
def deny_pending (db : DB) (uid : String) : Except ApiError (Unit × DB) :=
  if (db.pending.find? (fun q => q.user_id == uid)).isSome then
    .ok ((), { db with pending := db.pending.eraseP (fun q => q.user_id == uid) })
  else .error ⟨404, "Not found"⟩

/-- PATCH /users/:id/status (`main.py` `update_user_status`); the schema layer
restricts `newStatus` to pending, approved or denied. -/
def update_user_status (db : DB) (uid : String) (newStatus : String) :
    Except ApiError (User × DB) :=
  match db.users.find? (fun x => x.user_id == uid) with
  | none => .error ⟨404, "Not found"⟩
  | some u =>
    let users' := updateFirst (fun x => x.user_id == uid)
      (fun x => { x with status := newStatus }) db.users
    .ok ({ u with status := newStatus }, { db with users := users' })

/-- DELETE /users/:id (`main.py` `delete_user`). -/
def delete_user (db : DB) (uid : String) : Except ApiError (Unit × DB) :=
  if (db.users.find? (fun x => x.user_id == uid)).isSome then
    .ok ((), { db with users := db.users.eraseP (fun x => x.user_id == uid) })
  else .error ⟨404, "Not found"⟩

/-- Python `str.lower()` (ASCII-relevant part), written over the character
list so it evaluates by kernel reduction. -/
def strLower (s : String) : String := ⟨s.data.map Char.toLower⟩

/-- Python `str.strip()`: drop whitespace at both ends. -/
def strTrim (s : String) : String :=
  ⟨((s.data.dropWhile (·.isWhitespace)).reverse.dropWhile (·.isWhitespace)).reverse⟩

/-- `(t.status or "").lower()` — on a required string field this is just
lowercasing, since `"".lower() = ""`. -/
def normStatus (s : String) : String := strLower s

/-- POST /tx (`main.py` `create_tx`, the "log" variant): always inserts the
row verbatim; bumps `total_paid` only when the lowercased status is
"success" and the referenced user exists. No amount validation. -/
def create_tx (db : DB) (t : TxCreate) : Except ApiError (TxLog × DB) :=
  let log : TxLog := { id := db.nextTxId, user_id := t.user_id, amount := t.amount,
                       status := t.status, tx_hash := t.tx_hash, network := t.network,
                       meta := t.meta }
  let users' :=
    if normStatus t.status == "success" then
      updateFirst (fun x => x.user_id == t.user_id)
        (fun x => { x with total_paid := x.total_paid + t.amount }) db.users
    else db.users
  .ok (log, { db with users := users', txlogs := db.txlogs ++ [log],
                      nextTxId := db.nextTxId + 1 })

/-- GET /tx/user/:id (`main.py` `tx_by_user`): all rows for the user, newest
first (descending id = reverse insertion order). -/
def tx_by_user (db : DB) (uid : String) : List TxLog :=
  (db.txlogs.filter (fun l => l.user_id == uid)).reverse

/-- `(p.status or "success").lower()`. -/
def payStatusNorm (s : String) : String := strLower (if s == "" then "success" else s)

/-- POST /pay (`main.py` `pay`, the "pay" variant): 404 when the user is
absent, then 400 when `amount <= 0`; synthesizes `tx_hash` when empty,
normalizes the status, inserts the row and bumps `total_paid` on
"success". Returns the created row and the user's `total_paid` after the
call (the HTTP response exposes `log.id` and that total). -/
def pay (db : DB) (p : PayIn) (freshHash : String) : Except ApiError (TxLog × Rat × DB) :=
  match db.users.find? (fun x => x.user_id == p.user_id) with
  | none => .error ⟨404, "User not found"⟩
  | some u =>
    if p.amount ≤ 0 then .error ⟨400, "Amount must be > 0"⟩
    else
      let txh := if p.tx_hash == "" then freshHash else p.tx_hash
      let st := payStatusNorm p.status
      let log : TxLog := { id := db.nextTxId, user_id := p.user_id, amount := p.amount,
                           status := st, tx_hash := txh, network := p.network, meta := none }
      let users' :=
        if st == "success" then
          updateFirst (fun x => x.user_id == p.user_id)
            (fun x => { x with total_paid := x.total_paid + p.amount }) db.users
        else db.users
      let tot := if st == "success" then u.total_paid + p.amount else u.total_paid
      .ok (log, tot, { db with users := users', txlogs := db.txlogs ++ [log],
                               nextTxId := db.nextTxId + 1 })

/-- `users.py` `_ensure_status`: lowercase, strip, check membership in the
allowed set. -/
def ensure_status (v : String) : Except ApiError String :=
  let s := strTrim (strLower v)
  if s == "pending" || s == "approved" || s == "denied" then .ok s
  else .error ⟨400, "Invalid status"⟩

/-- POST /users from `users.py` (`admin_create_user`): validates the status
value and inserts — it performs no application-level duplicate check at
all, and only `user_id` (not `email`) carries a DB unique index in
`models.py`, so a duplicate-email insert commits. -/
def admin_create_user (db : DB) (payload : AdminUserCreate) : Except ApiError (User × DB) :=
  match ensure_status payload.status with
  | .error e => .error e
  | .ok st =>
    let user : User := { id := db.nextUserId, user_id := payload.user_id, nick := payload.nick,
                         email := payload.email, wallet := payload.wallet,
                         network := payload.network, total_paid := 0, status := st }
    .ok (user, { db with users := db.users ++ [user], nextUserId := db.nextUserId + 1 })

/-- The operations `main.py` exposes that can mutate state, for reachability
arguments. -/
inductive Op where
  | createUser (u : UserCreate)
  | publicSubmit (u : UserCreate)
  | approvePending (uid : String)
  | denyPending (uid : String)
  | updateStatus (uid newStatus : String)
  | deleteUser (uid : String)
  | createTx (t : TxCreate)
  | payOp (p : PayIn) (freshHash : String)
deriving DecidableEq

/-- One request: on error the state is unchanged. -/
def step (db : DB) : Op → DB
  | .createUser u => dbAfter db (create_user db u)
  | .publicSubmit u => dbAfter db (public_submit db u)
  | .approvePending uid => dbAfter db (approve_pending db uid)
  | .denyPending uid => dbAfter db (deny_pending db uid)
  | .updateStatus uid s => dbAfter db (update_user_status db uid s)
  | .deleteUser uid => dbAfter db (delete_user db uid)
  | .createTx t => dbAfter db (create_tx db t)
  | .payOp p h => payDBAfter db (pay db p h)

/-- Run a sequence of requests. -/
def run (db : DB) (ops : List Op) : DB := ops.foldl step db

/-- Is the op a log-variant record?  If so, demand a positive amount (the
pay variant enforces positivity itself; no other op carries an amount). -/
def txPositive : Op → Bool
  | .createTx t => decide (0 < t.amount)
  | _ => true

/-- All balances non-negative. -/
def UsersNonneg (db : DB) : Prop := ∀ x ∈ db.users, 0 ≤ x.total_paid

/-! ### Concrete fixtures used by witnesses and counterexamples -/

def userU1 : User :=
  { id := 1, user_id := "u1", nick := some "Nick", email := some "a@b.com",
    wallet := some "0xabc", network := some "ERC20", total_paid := 0, status := "approved" }

def dbOneUser : DB := { emptyDB with users := [userU1], nextUserId := 2 }

/-- An admin create (`users.py` shape) re-using an email already on file. -/
def adminDupEmailPayload : AdminUserCreate :=
  { user_id := "u2", nick := some "Other", email := some "a@b.com",
    wallet := some "0xdef", network := some "ERC20" }

/-- Log-variant record with a non-positive amount. -/
def negTx : TxCreate :=
  { user_id := "u1", amount := -5, status := "failed", tx_hash := "0xneg",
    network := "ERC20", meta := none }

/-- Log-variant record with an upper-case status. -/
def txUpper : TxCreate :=
  { user_id := "u1", amount := 5, status := "SUCCESS", tx_hash := "0xs",
    network := "ERC20", meta := none }

/-- Reachable state holding exactly one user `u2` whose status is "pending":
admin-created, then status-updated. -/
def opsPendingUser : List Op :=
  [.createUser ⟨"u2", "N2", "c@d.com", "0x2", "ERC20"⟩, .updateStatus "u2" "pending"]

def dbPendingUser : DB := run emptyDB opsPendingUser

/-- Reachable state holding exactly one user `u1` whose status is "denied". -/
def opsDeniedUser : List Op :=
  [.createUser ⟨"u1", "Nick", "a@b.com", "0xabc", "ERC20"⟩, .updateStatus "u1" "denied"]

def dbDeniedUser : DB := run emptyDB opsDeniedUser

/-- Reachable state where the record of a negative "success" amount (which
the log variant accepts) drives `total_paid` below zero. -/
def opsNegSuccess : List Op :=
  [.createUser ⟨"u1", "Nick", "a@b.com", "0xabc", "ERC20"⟩,
   .createTx ⟨"u1", -5, "success", "0xneg", "ERC20", none⟩]

/-- Positive-amount request mix for the C5 witness. -/
def opsAllPositive : List Op :=
  [.createUser ⟨"u1", "Nick", "a@b.com", "0xabc", "ERC20"⟩,
   .createTx ⟨"u1", 50, "success", "0xh", "ERC20", none⟩,
   .payOp ⟨"u1", 25, "ERC20", "", "failed"⟩ "0xf",
   .publicSubmit ⟨"u9", "P", "p@q.com", "0x9", "TRC20"⟩]

/-- Pending row fixture. -/
def pendRowP1 : PendingUser :=
  { id := 1, user_id := "p1", nick := "PN", email := "a@b.com",
    wallet := "0xp", network := "TRC20" }

/-- Pending row whose identity clashes with `userU1`'s email. -/
def dbPendConflict : DB :=
  { emptyDB with users := [userU1], pending := [pendRowP1], nextUserId := 2, nextPendingId := 2 }

/-- Pending row with a fresh identity. -/
def pendRowP2 : PendingUser :=
  { id := 1, user_id := "p2", nick := "QN", email := "x@y.com", wallet := "0xq", network := "ERC20" }

def dbPendOnly : DB := { emptyDB with pending := [pendRowP2], nextPendingId := 2 }

/-! ### List helper lemmas -/

/-- `find?` after `updateFirst` with the same predicate returns the updated
element, provided the update preserves the predicate. -/
theorem find?_updateFirst {p : α → Bool} {f : α → α}
    (hf : ∀ a, p a = true → p (f a) = true) :
    ∀ {l : List α} {u : α}, l.find? p = some u →
      (updateFirst p f l).find? p = some (f u) := by
  intro l
  induction l with
  | nil => intro u h; simp [List.find?] at h
  | cons x xs ih =>
    intro u h
    by_cases hx : p x = true
    · rw [List.find?_cons_of_pos _ hx] at h
      cases h
      simp [updateFirst, hx, List.find?_cons_of_pos _ (hf _ hx)]
    · rw [List.find?_cons_of_neg _ (by simpa using hx)] at h
      simp [updateFirst, hx, List.find?_cons_of_neg _ (by simpa using hx), ih h]

/-- A pointwise property survives `updateFirst` when `f` preserves it. -/
theorem mem_updateFirst_pres {p : α → Bool} {f : α → α} {P : α → Prop}
    (hP : ∀ a, P a → P (f a)) :
    ∀ {l : List α}, (∀ a ∈ l, P a) → ∀ b ∈ updateFirst p f l, P b := by
  intro l
  induction l with
  | nil => intro _ b hb; simp [updateFirst] at hb
  | cons x xs ih =>
    intro hl b hb
    by_cases hx : p x = true
    · simp only [updateFirst, hx, if_true, List.mem_cons] at hb
      rcases hb with hb | hb
      · exact hb ▸ hP x (hl x (List.mem_cons_self x xs))
      · exact hl b (List.mem_cons_of_mem x hb)
    · simp only [updateFirst, hx, if_false, Bool.false_eq_true, List.mem_cons] at hb
      rcases hb with hb | hb
      · exact hb ▸ hl x (List.mem_cons_self x xs)
      · exact ih (fun a ha => hl a (List.mem_cons_of_mem x ha)) b hb

/-- `updateFirst` leaves the length unchanged. -/
theorem length_updateFirst (p : α → Bool) (f : α → α) :
    ∀ l : List α, (updateFirst p f l).length = l.length := by
  intro l
  induction l with
  | nil => rfl
  | cons x xs ih =>
    by_cases hx : p x = true <;> simp [updateFirst, hx, ih]

/-- Erasing the first occurrence in a list holding at most one occurrence
leaves none. -/
theorem find?_eraseP_eq_none {p : α → Bool} :
    ∀ {l : List α}, l.countP p ≤ 1 → (l.eraseP p).find? p = none := by
  intro l
  induction l with
  | nil => intro _; rfl
  | cons x xs ih =>
    intro hc
    by_cases hx : p x = true
    · rw [List.eraseP_cons_of_pos hx]
      rw [List.countP_cons_of_pos _ _ hx] at hc
      have h0 : xs.countP p = 0 := by omega
      rw [List.find?_eq_none]
      intro y hy
      have := (List.countP_eq_zero).mp h0 y hy
      simpa using this
    · rw [List.eraseP_cons_of_neg (by simpa using hx)]
      rw [List.countP_cons_of_neg _ _ (by simpa using hx)] at hc
      rw [List.find?_cons_of_neg _ (by simpa using hx)]
      exact ih hc

/-! ### C1 -/

/-- C1: for every record call — log variant `create_tx` or pay variant `pay` —
whose normalized status is "success" and that references an existing user,
the user's `total_paid` after the call is its value before plus the amount
(exactly one update, of the first matching row), and the transaction list
gains exactly the new row in the same operation. -/
theorem record_success_adds_amount_once :
    (∀ (db : DB) (t : TxCreate) (u : User),
      findUser db t.user_id = some u →
      normStatus t.status = "success" →
      ∃ log db', create_tx db t = .ok (log, db') ∧
        findUser db' t.user_id = some { u with total_paid := u.total_paid + t.amount } ∧
        db'.txlogs = db.txlogs ++ [log])
  ∧ (∀ (db : DB) (p : PayIn) (hash : String) (u : User),
      findUser db p.user_id = some u →
      payStatusNorm p.status = "success" →
      0 < p.amount →
      ∃ log db', pay db p hash = .ok (log, u.total_paid + p.amount, db') ∧
        findUser db' p.user_id = some { u with total_paid := u.total_paid + p.amount } ∧
        db'.txlogs = db.txlogs ++ [log]) := by
  constructor
  · intro db t u hu hs
    refine ⟨_, _, rfl, ?_, rfl⟩
    simp only [create_tx, findUser, hs, beq_self_eq_true, if_true] at hu ⊢
    exact find?_updateFirst
      (f := fun x => { x with total_paid := x.total_paid + t.amount }) (fun a ha => ha) hu
  · intro db p hash u hu hs ha
    have hna : ¬ p.amount ≤ 0 := not_le.mpr ha
    simp only [findUser] at hu
    simp only [pay, hu, if_neg hna, hs, beq_self_eq_true, if_true]
    refine ⟨_, _, rfl, ?_, rfl⟩
    simp only [findUser]
    exact find?_updateFirst
      (f := fun x => { x with total_paid := x.total_paid + p.amount }) (fun a ha => ha) hu

/-- Witness for C1 at a concrete state: one approved user `u1` with
`total_paid = 0`; a log-variant record of 50 with status "success" and a
pay-variant record of 25 with status "Success". -/
theorem record_success_adds_amount_once_witness :
    (∃ log db', create_tx dbOneUser ⟨"u1", 50, "success", "0xh", "ERC20", none⟩ = .ok (log, db') ∧
      findUser db' "u1" = some { userU1 with total_paid := 0 + 50 } ∧
      db'.txlogs = dbOneUser.txlogs ++ [log])
  ∧ (∃ log db', pay dbOneUser ⟨"u1", 25, "ERC20", "0xh2", "Success"⟩ "0xfresh" =
        .ok (log, (0 : Rat) + 25, db') ∧
      findUser db' "u1" = some { userU1 with total_paid := 0 + 25 } ∧
      db'.txlogs = dbOneUser.txlogs ++ [log]) :=
  ⟨record_success_adds_amount_once.1 dbOneUser ⟨"u1", 50, "success", "0xh", "ERC20", none⟩
      userU1 (by decide) (by decide),
   record_success_adds_amount_once.2 dbOneUser ⟨"u1", 25, "ERC20", "0xh2", "Success"⟩
      "0xfresh" userU1 (by decide) (by decide) (by norm_num)⟩

/-! ### C2 -/

/-- C2 counterexample: `users.py` `admin_create_user` — a cited admin-create
entry point — performs no duplicate check: with user `u1` holding email
"a@b.com" already on file, creating `u2` with the same email succeeds and
adds a row (the `email` column carries no DB uniqueness constraint in
`models.py`), instead of failing with Conflict. -/
theorem admin_create_user_dup_email_not_rejected :
    dupUserExists dbOneUser "u2" "a@b.com" = true ∧
    isOkE (admin_create_user dbOneUser adminDupEmailPayload) = true ∧
    (dbAfter dbOneUser (admin_create_user dbOneUser adminDupEmailPayload)).users.length =
      dbOneUser.users.length + 1 := by
  decide

/-- C2 amended: the admin create the application actually mounts (`main.py`
`create_user`) does satisfy the claim: a duplicate `user_id` or `email`
is rejected (400, detail "User ID or email already exists" — the spec's
Conflict) and the table is unchanged; `users.py` `admin_create_user`
checks nothing (see the counterexample). -/
theorem create_user_dup_conflict (db : DB) (u : UserCreate)
    (h : dupUserExists db u.user_id u.email = true) :
    create_user db u = .error ⟨400, "User ID or email already exists"⟩ ∧
    dbAfter db (create_user db u) = db := by
  refine ⟨?_, ?_⟩ <;> simp [create_user, h, dbAfter]

/-- Witness for the C2 amended theorem: creating `u3` with `u1`'s email. -/
theorem create_user_dup_conflict_witness :
    create_user dbOneUser ⟨"u3", "N", "a@b.com", "0x9", "ERC20"⟩ =
        .error ⟨400, "User ID or email already exists"⟩ ∧
    dbAfter dbOneUser (create_user dbOneUser ⟨"u3", "N", "a@b.com", "0x9", "ERC20"⟩) =
      dbOneUser :=
  create_user_dup_conflict dbOneUser ⟨"u3", "N", "a@b.com", "0x9", "ERC20"⟩ (by decide)

/-! ### C3 -/

/-- C3 counterexample: the log variant `create_tx` performs no amount
validation: recording amount = -5 succeeds and persists the row, instead
of failing with InvalidArgument with no Transaction persisted. -/
theorem create_tx_negative_amount_persists :
    negTx.amount ≤ 0 ∧
    isOkE (create_tx dbOneUser negTx) = true ∧
    (dbAfter dbOneUser (create_tx dbOneUser negTx)).txlogs.length =
      dbOneUser.txlogs.length + 1 := by
  refine ⟨by norm_num [negTx], by decide, by decide⟩

/-- C3 amended: only the pay variant validates the amount: `pay` with
`amount <= 0` (and an existing user, which it checks first, see C10)
fails with 400 "Amount must be > 0" and persists nothing; `create_tx`
accepts any amount (see the counterexample). -/
theorem pay_rejects_nonpositive_amount (db : DB) (p : PayIn) (hash : String) (u : User)
    (hu : findUser db p.user_id = some u) (ha : p.amount ≤ 0) :
    pay db p hash = .error ⟨400, "Amount must be > 0"⟩ ∧
    payDBAfter db (pay db p hash) = db := by
  simp only [findUser] at hu
  refine ⟨?_, ?_⟩ <;> simp [pay, hu, ha, payDBAfter]

/-- Witness for the C3 amended theorem: paying `u1` an amount of -3. -/
theorem pay_rejects_nonpositive_amount_witness :
    pay dbOneUser ⟨"u1", -3, "ERC20", "", "success"⟩ "0xf" =
        .error ⟨400, "Amount must be > 0"⟩ ∧
    payDBAfter dbOneUser (pay dbOneUser ⟨"u1", -3, "ERC20", "", "success"⟩ "0xf") =
      dbOneUser :=
  pay_rejects_nonpositive_amount dbOneUser ⟨"u1", -3, "ERC20", "", "success"⟩ "0xf"
    userU1 (by decide) (by norm_num)

/-! ### C4 -/

unseal Rat.add in
/-- C4 counterexample: `pay` never inspects the user's status. In the
reachable state where `u2` has status "pending", paying 10 succeeds,
appends a transaction and bumps `total_paid` to 10 — instead of failing
with InvalidState with no effect. -/
theorem pay_unapproved_user_not_rejected :
    (findUser dbPendingUser "u2").map (fun x => x.status) = some "pending" ∧
    isOkE (pay dbPendingUser ⟨"u2", 10, "ERC20", "0xh", "success"⟩ "0xf") = true ∧
    (payDBAfter dbPendingUser
        (pay dbPendingUser ⟨"u2", 10, "ERC20", "0xh", "success"⟩ "0xf")).txlogs.length = 1 ∧
    (findUser (payDBAfter dbPendingUser
        (pay dbPendingUser ⟨"u2", 10, "ERC20", "0xh", "success"⟩ "0xf")) "u2").map
      (fun x => x.total_paid) = some 10 := by
  decide

/-- C4 amended: the pay variant checks only existence and amount, never the
status: for any existing user — whatever its status — and positive
amount, the call succeeds and appends one transaction (the balance is
bumped exactly when the normalized status is "success"). -/
theorem pay_ignores_user_status (db : DB) (p : PayIn) (hash : String) (u : User)
    (hu : findUser db p.user_id = some u) (ha : 0 < p.amount) :
    ∃ log tot db', pay db p hash = .ok (log, tot, db') ∧
      db'.txlogs = db.txlogs ++ [log] := by
  simp only [findUser] at hu
  have hna : ¬ p.amount ≤ 0 := not_le.mpr ha
  simp only [pay, hu, if_neg hna]
  by_cases hs : (payStatusNorm p.status == "success") = true
  · simp only [hs, if_true]
    exact ⟨_, _, _, rfl, rfl⟩
  · simp only [Bool.not_eq_true] at hs
    simp only [hs, Bool.false_eq_true, if_false]
    exact ⟨_, _, _, rfl, rfl⟩

/-- Witness for the C4 amended theorem: paying the "pending" user `u2`. -/
theorem pay_ignores_user_status_witness :
    ∃ log tot db', pay dbPendingUser ⟨"u2", 10, "ERC20", "0xh", "success"⟩ "0xf" =
        .ok (log, tot, db') ∧
      db'.txlogs = dbPendingUser.txlogs ++ [log] :=
  pay_ignores_user_status dbPendingUser ⟨"u2", 10, "ERC20", "0xh", "success"⟩ "0xf"
    { id := 1, user_id := "u2", nick := some "N2", email := some "c@d.com",
      wallet := some "0x2", network := some "ERC20", total_paid := 0, status := "pending" }
    (by decide) (by norm_num)

/-! ### C5 -/

unseal Rat.add in
/-- C5 counterexample: `total_paid` is NOT a non-negative accumulator over
the exposed operations: starting from the empty store, admin-create `u1`
and then log a record of amount -5 with status "success" (which
`create_tx` accepts, see C3) — `u1`'s balance is now -5 < 0. -/
theorem total_paid_can_go_negative :
    (run emptyDB opsNegSuccess).users.any (fun x => decide (x.total_paid < 0)) = true := by
  decide

/-- Any single request keeps every balance non-negative, provided log-variant
records carry positive amounts (the pay variant guards on its own). -/
theorem step_pres_nonneg (db : DB) (op : Op) (hdb : UsersNonneg db)
    (hop : txPositive op = true) : UsersNonneg (step db op) := by
  cases op with
  | createUser u =>
    simp only [step, create_user]
    split
    · simpa only [dbAfter] using hdb
    · simp only [dbAfter]
      intro x hx
      rcases List.mem_append.mp hx with hx | hx
      · exact hdb x hx
      · simp only [List.mem_singleton] at hx
        subst hx
        exact le_rfl
  | publicSubmit u =>
    simp only [step, public_submit]
    split
    · simpa only [dbAfter] using hdb
    · split
      · simpa only [dbAfter] using hdb
      · simpa only [dbAfter] using hdb
  | approvePending uid =>
    simp only [step, approve_pending]
    cases hf : db.pending.find? (fun q => q.user_id == uid) with
    | none => simpa only [dbAfter] using hdb
    | some p =>
      by_cases hd : dupUserExists db p.user_id p.email = true
      · simp only [hd, if_true, dbAfter]
        exact hdb
      · simp only [Bool.not_eq_true] at hd
        simp only [hd, Bool.false_eq_true, if_false, dbAfter]
        intro x hx
        rcases List.mem_append.mp hx with hx | hx
        · exact hdb x hx
        · simp only [List.mem_singleton] at hx
          subst hx
          exact le_rfl
  | denyPending uid =>
    simp only [step, deny_pending]
    split
    · simpa only [dbAfter] using hdb
    · simpa only [dbAfter] using hdb
  | updateStatus uid s =>
    simp only [step, update_user_status]
    cases hf : db.users.find? (fun x => x.user_id == uid) with
    | none => simpa only [dbAfter] using hdb
    | some u =>
      simp only [dbAfter]
      exact mem_updateFirst_pres (f := fun x => { x with status := s }) (fun a ha => ha) hdb
  | deleteUser uid =>
    simp only [step, delete_user]
    split
    · simp only [dbAfter]
      intro x hx
      exact hdb x ((db.users.eraseP_sublist).subset hx)
    · simpa only [dbAfter] using hdb
  | createTx t =>
    have ha : 0 < t.amount := of_decide_eq_true (by simpa [txPositive] using hop)
    simp only [step, create_tx, dbAfter]
    by_cases hs : (normStatus t.status == "success") = true
    · simp only [hs, if_true]
      exact mem_updateFirst_pres
        (f := fun x => { x with total_paid := x.total_paid + t.amount })
        (fun a hx => add_nonneg hx (le_of_lt ha)) hdb
    · simp only [Bool.not_eq_true] at hs
      simp only [hs, Bool.false_eq_true, if_false]
      exact hdb
  | payOp p h =>
    simp only [step]
    cases hf : db.users.find? (fun x => x.user_id == p.user_id) with
    | none =>
      simp only [pay, hf, payDBAfter]
      exact hdb
    | some u =>
      by_cases hna : p.amount ≤ 0
      · simp only [pay, hf, if_pos hna, payDBAfter]
        exact hdb
      · have ha : 0 < p.amount := lt_of_not_le hna
        by_cases hs : (payStatusNorm p.status == "success") = true
        · simp only [pay, hf, if_neg hna, hs, if_true, payDBAfter]
          exact mem_updateFirst_pres
            (f := fun x => { x with total_paid := x.total_paid + p.amount })
            (fun a hx => add_nonneg hx (le_of_lt ha)) hdb
        · simp only [Bool.not_eq_true] at hs
          simp only [pay, hf, if_neg hna, hs, Bool.false_eq_true, if_false, payDBAfter]
          exact hdb

/-- Non-negativity is preserved along any request sequence whose log-variant
records have positive amounts. -/
theorem run_pres_nonneg (ops : List Op) : ∀ db : DB, UsersNonneg db →
    ops.all txPositive = true → UsersNonneg (run db ops) := by
  induction ops with
  | nil => intro db h _; exact h
  | cons op rest ih =>
    intro db h hall
    rw [List.all_cons, Bool.and_eq_true] at hall
    exact ih (step db op) (step_pres_nonneg db op h hall.1) hall.2

/-- C5 amended: `total_paid` starts at 0 and stays non-negative in every
state reachable by the exposed operations PROVIDED every log-variant
record (`create_tx`) carries a positive amount; `pay` enforces
positivity itself, but `create_tx` does not, and a negative "success"
amount breaks the invariant (see the counterexample). -/
theorem total_paid_nonneg (ops : List Op) (h : ops.all txPositive = true) :
    (run emptyDB ops).users.all (fun x => decide (0 ≤ x.total_paid)) = true := by
  rw [List.all_eq_true]
  intro x hx
  exact decide_eq_true
    (run_pres_nonneg ops emptyDB (fun y hy => absurd hy (List.not_mem_nil y)) h x hx)

/-- Witness for the C5 amended theorem on a positive-amount request mix. -/
theorem total_paid_nonneg_witness :
    (run emptyDB opsAllPositive).users.all (fun x => decide (0 ≤ x.total_paid)) = true :=
  total_paid_nonneg opsAllPositive (by decide)

/-- `find?` over an append whose left part has no match. -/
theorem find?_append_of_none {p : α → Bool} :
    ∀ {l₁ : List α}, l₁.find? p = none → ∀ l₂, (l₁ ++ l₂).find? p = l₂.find? p := by
  intro l₁
  induction l₁ with
  | nil => intro _ l₂; rfl
  | cons x xs ih =>
    intro h l₂
    rw [List.find?_eq_none] at h
    have hx : ¬ p x = true := by simpa using h x (List.mem_cons_self x xs)
    rw [List.cons_append, List.find?_cons_of_neg _ hx]
    exact ih (by rw [List.find?_eq_none]; intro y hy; exact h y (List.mem_cons_of_mem x hy)) l₂

/-! ### C6 -/

/-- C6: `approve_pending` semantics. (1) No pending record: 404. (2) A user
with the pending row's `user_id` or `email` already exists: the pending
row is discarded and the call reports already-present without erroring,
creating no user. (3) Otherwise a user is materialized in the same
operation with status "approved", `total_paid = 0`, and exactly the
pending row's identity/profile fields, and the pending row is removed
(`listPending` no longer includes that `user_id`). The `≤ 1` occurrence
hypotheses reflect the DB unique index on `pending_users.user_id`. -/
theorem approve_pending_spec :
    (∀ (db : DB) (uid : String),
      db.pending.find? (fun q => q.user_id == uid) = none →
      approve_pending db uid = .error ⟨404, "Not found"⟩)
  ∧ (∀ (db : DB) (uid : String) (p : PendingUser),
      db.pending.find? (fun q => q.user_id == uid) = some p →
      dupUserExists db p.user_id p.email = true →
      db.pending.countP (fun q => q.user_id == uid) ≤ 1 →
      ∃ db', approve_pending db uid = .ok (.alreadyPresent, db') ∧
        db'.users = db.users ∧
        db'.pending.find? (fun q => q.user_id == uid) = none)
  ∧ (∀ (db : DB) (uid : String) (p : PendingUser),
      db.pending.find? (fun q => q.user_id == uid) = some p →
      dupUserExists db p.user_id p.email = false →
      db.pending.countP (fun q => q.user_id == uid) ≤ 1 →
      ∃ u db', approve_pending db uid = .ok (.created u, db') ∧
        u.user_id = p.user_id ∧ u.nick = some p.nick ∧ u.email = some p.email ∧
        u.wallet = some p.wallet ∧ u.network = some p.network ∧
        u.status = "approved" ∧ u.total_paid = 0 ∧
        db'.users = db.users ++ [u] ∧
        db'.pending.find? (fun q => q.user_id == uid) = none) := by
  refine ⟨?_, ?_, ?_⟩
  · intro db uid hf
    simp [approve_pending, hf]
  · intro db uid p hf hd hc
    simp only [approve_pending, hf, hd, if_true]
    exact ⟨_, rfl, rfl, find?_eraseP_eq_none hc⟩
  · intro db uid p hf hd hc
    simp only [approve_pending, hf, hd, Bool.false_eq_true, if_false]
    exact ⟨_, _, rfl, rfl, rfl, rfl, rfl, rfl, rfl, rfl, rfl, find?_eraseP_eq_none hc⟩

/-- Witness for C6: all three branches at concrete stores — no pending row
(empty store), a pending row clashing with `u1`'s email, and a pending
row with a fresh identity. -/
theorem approve_pending_spec_witness :
    approve_pending emptyDB "zz" = .error ⟨404, "Not found"⟩
  ∧ (∃ db', approve_pending dbPendConflict "p1" = .ok (.alreadyPresent, db') ∧
      db'.users = dbPendConflict.users ∧
      db'.pending.find? (fun q => q.user_id == "p1") = none)
  ∧ (∃ u db', approve_pending dbPendOnly "p2" = .ok (.created u, db') ∧
      u.user_id = pendRowP2.user_id ∧ u.nick = some pendRowP2.nick ∧
      u.email = some pendRowP2.email ∧ u.wallet = some pendRowP2.wallet ∧
      u.network = some pendRowP2.network ∧ u.status = "approved" ∧ u.total_paid = 0 ∧
      db'.users = dbPendOnly.users ++ [u] ∧
      db'.pending.find? (fun q => q.user_id == "p2") = none) :=
  ⟨approve_pending_spec.1 emptyDB "zz" (by decide),
   approve_pending_spec.2.1 dbPendConflict "p1" pendRowP1 (by decide) (by decide) (by decide),
   approve_pending_spec.2.2 dbPendOnly "p2" pendRowP2 (by decide) (by decide) (by decide)⟩

/-! ### C7 -/

/-- C7 counterexample: the conflict check in `public_submit` fires for ANY
existing user, not only approved ones. In the reachable state where the
only user `u1` has status "denied" (so no approved user matches), a
public re-submission for `u1` is rejected with 409 and no pending row is
created — where the claim requires an upsert. -/
theorem public_submit_conflict_on_nonapproved_user :
    dbDeniedUser.users.all (fun x => decide (x.status ≠ "approved")) = true ∧
    errCode (public_submit dbDeniedUser ⟨"u1", "Nick", "a@b.com", "0xabc", "ERC20"⟩) =
      some 409 ∧
    (dbAfter dbDeniedUser
        (public_submit dbDeniedUser ⟨"u1", "Nick", "a@b.com", "0xabc", "ERC20"⟩)).pending.length
      = 0 := by
  decide

/-- C7 amended: `public_submit` fails with 409 Conflict when a user with the
same `user_id` or `email` exists in ANY status (not just approved), and
no pending record is touched; otherwise it upserts the PendingRequest
keyed on `user_id`: overwriting the profile fields in place when a
pending row exists (same row count), else appending a single new row. -/
theorem public_submit_spec :
    (∀ (db : DB) (u : UserCreate), dupUserExists db u.user_id u.email = true →
      public_submit db u = .error ⟨409, "User already exists"⟩)
  ∧ (∀ (db : DB) (u : UserCreate) (p0 : PendingUser),
      dupUserExists db u.user_id u.email = false →
      db.pending.find? (fun q => q.user_id == u.user_id) = some p0 →
      ∃ db', public_submit db u = .ok ((), db') ∧
        db'.pending.length = db.pending.length ∧
        db'.pending.find? (fun q => q.user_id == u.user_id) =
          some { p0 with nick := u.nick, email := u.email, wallet := u.wallet,
                         network := u.network } ∧
        db'.users = db.users)
  ∧ (∀ (db : DB) (u : UserCreate),
      dupUserExists db u.user_id u.email = false →
      db.pending.find? (fun q => q.user_id == u.user_id) = none →
      ∃ db', public_submit db u = .ok ((), db') ∧
        db'.pending.length = db.pending.length + 1 ∧
        db'.pending.find? (fun q => q.user_id == u.user_id) =
          some { id := db.nextPendingId, user_id := u.user_id, nick := u.nick,
                 email := u.email, wallet := u.wallet, network := u.network } ∧
        db'.users = db.users) := by
  refine ⟨?_, ?_, ?_⟩
  · intro db u hd
    simp [public_submit, hd]
  · intro db u p0 hd hf
    simp only [public_submit, hd, Bool.false_eq_true, if_false, hf, Option.isSome_some, if_true]
    refine ⟨_, rfl, length_updateFirst _ _ _, ?_, rfl⟩
    exact find?_updateFirst
      (f := fun q => { q with nick := u.nick, email := u.email, wallet := u.wallet,
                              network := u.network }) (fun a ha => ha) hf
  · intro db u hd hf
    simp only [public_submit, hd, Bool.false_eq_true, if_false, hf, Option.isSome_none]
    refine ⟨_, rfl, by simp, ?_, rfl⟩
    rw [find?_append_of_none hf]
    simp [List.find?]

/-- Witness for the C7 amended theorem: the three branches at concrete
stores — a clashing email, an overwrite of pending `p2`, and a fresh
first submission on the empty store. -/
theorem public_submit_spec_witness :
    public_submit dbOneUser ⟨"u7", "X", "a@b.com", "0x7", "ERC20"⟩ =
        .error ⟨409, "User already exists"⟩
  ∧ (∃ db', public_submit dbPendOnly ⟨"p2", "QN2", "x2@y.com", "0xq2", "TRC20"⟩ =
        .ok ((), db') ∧
      db'.pending.length = dbPendOnly.pending.length ∧
      db'.pending.find? (fun q => q.user_id == "p2") =
        some { pendRowP2 with nick := "QN2", email := "x2@y.com", wallet := "0xq2",
                              network := "TRC20" } ∧
      db'.users = dbPendOnly.users)
  ∧ (∃ db', public_submit emptyDB ⟨"p9", "Z", "z@z.com", "0xz", "ERC20"⟩ = .ok ((), db') ∧
      db'.pending.length = emptyDB.pending.length + 1 ∧
      db'.pending.find? (fun q => q.user_id == "p9") =
        some { id := emptyDB.nextPendingId, user_id := "p9", nick := "Z", email := "z@z.com",
               wallet := "0xz", network := "ERC20" } ∧
      db'.users = emptyDB.users) :=
  ⟨public_submit_spec.1 dbOneUser ⟨"u7", "X", "a@b.com", "0x7", "ERC20"⟩ (by decide),
   public_submit_spec.2.1 dbPendOnly ⟨"p2", "QN2", "x2@y.com", "0xq2", "TRC20"⟩ pendRowP2
     (by decide) (by decide),
   public_submit_spec.2.2 emptyDB ⟨"p9", "Z", "z@z.com", "0xz", "ERC20"⟩
     (by decide) (by decide)⟩

/-! ### C8 -/

/-- C8: a record whose normalized status is not "success" (either variant)
leaves the users table — hence every `total_paid` — untouched, while
still appending exactly one transaction row, so `listByUser` for that
user gains one entry. (For the log variant this holds whether or not the
user exists; the pay variant first requires existence and a positive
amount to get past its guards.) -/
theorem record_non_success_keeps_total :
    (∀ (db : DB) (t : TxCreate), normStatus t.status ≠ "success" →
      ∃ log db', create_tx db t = .ok (log, db') ∧
        db'.users = db.users ∧
        db'.txlogs = db.txlogs ++ [log] ∧
        (tx_by_user db' t.user_id).length = (tx_by_user db t.user_id).length + 1)
  ∧ (∀ (db : DB) (p : PayIn) (hash : String) (u : User),
      findUser db p.user_id = some u →
      payStatusNorm p.status ≠ "success" → 0 < p.amount →
      ∃ log tot db', pay db p hash = .ok (log, tot, db') ∧
        db'.users = db.users ∧
        db'.txlogs = db.txlogs ++ [log] ∧
        (tx_by_user db' p.user_id).length = (tx_by_user db p.user_id).length + 1) := by
  constructor
  · intro db t hs
    have hsb : (normStatus t.status == "success") = false := by simpa using hs
    simp only [create_tx, hsb, Bool.false_eq_true, if_false]
    refine ⟨_, _, rfl, rfl, rfl, ?_⟩
    simp [tx_by_user, List.filter_append]
  · intro db p hash u hu hs ha
    have hna : ¬ p.amount ≤ 0 := not_le.mpr ha
    have hsb : (payStatusNorm p.status == "success") = false := by simpa using hs
    simp only [findUser] at hu
    simp only [pay, hu, if_neg hna, hsb, Bool.false_eq_true, if_false]
    refine ⟨_, _, _, rfl, rfl, rfl, ?_⟩
    simp [tx_by_user, List.filter_append]

/-- Witness for C8: recording failed transactions of 25 against `u1`
through both variants. -/
theorem record_non_success_keeps_total_witness :
    (∃ log db', create_tx dbOneUser ⟨"u1", 25, "failed", "0xf1", "ERC20", none⟩ =
        .ok (log, db') ∧
      db'.users = dbOneUser.users ∧
      db'.txlogs = dbOneUser.txlogs ++ [log] ∧
      (tx_by_user db' "u1").length = (tx_by_user dbOneUser "u1").length + 1)
  ∧ (∃ log tot db', pay dbOneUser ⟨"u1", 25, "ERC20", "0xf2", "FAILED"⟩ "0xh" =
        .ok (log, tot, db') ∧
      db'.users = dbOneUser.users ∧
      db'.txlogs = dbOneUser.txlogs ++ [log] ∧
      (tx_by_user db' "u1").length = (tx_by_user dbOneUser "u1").length + 1) :=
  ⟨record_non_success_keeps_total.1 dbOneUser ⟨"u1", 25, "failed", "0xf1", "ERC20", none⟩
      (by decide),
   record_non_success_keeps_total.2 dbOneUser ⟨"u1", 25, "ERC20", "0xf2", "FAILED"⟩ "0xh"
      userU1 (by decide) (by decide) (by norm_num)⟩

/-! ### C9 -/

unseal Rat.add in
/-- C9 counterexample: the log variant stores the supplied status verbatim:
recording with status "SUCCESS" persists a row whose status field is
"SUCCESS", not the lowercase "success" the claim requires (and the
balance bump still fires, because only the bump comparison lowercases). -/
theorem create_tx_stores_status_verbatim :
    txStatusOf (create_tx dbOneUser txUpper) = some "SUCCESS" ∧
    (findUser (dbAfter dbOneUser (create_tx dbOneUser txUpper)) "u1").map
      (fun x => x.total_paid) = some (0 + 5) := by
  decide

/-- C9 amended: only the pay variant defaults and normalizes the stored
status: `pay` persists `lower(status or "success")` — so an omitted
status (schema default) stores "success" and "SUCCESS" stores "success";
the log variant `create_tx` persists the required `status` field
verbatim with no default and no lowercasing (see the counterexample). -/
theorem record_status_normalization :
    (∀ (db : DB) (p : PayIn) (hash : String) (u : User),
      findUser db p.user_id = some u → 0 < p.amount →
      ∃ log tot db', pay db p hash = .ok (log, tot, db') ∧
        log.status = payStatusNorm p.status ∧
        db'.txlogs = db.txlogs ++ [log])
  ∧ (∀ (uid : String) (amt : Rat) (net : String),
      ({ user_id := uid, amount := amt, network := net } : PayIn).status = "success")
  ∧ (∀ (db : DB) (t : TxCreate), ∃ log db', create_tx db t = .ok (log, db') ∧
      log.status = t.status) := by
  refine ⟨?_, fun uid amt net => rfl, ?_⟩
  · intro db p hash u hu ha
    have hna : ¬ p.amount ≤ 0 := not_le.mpr ha
    simp only [findUser] at hu
    simp only [pay, hu, if_neg hna]
    by_cases hs : (payStatusNorm p.status == "success") = true
    · simp only [hs, if_true]
      exact ⟨_, _, _, rfl, rfl, rfl⟩
    · simp only [Bool.not_eq_true] at hs
      simp only [hs, Bool.false_eq_true, if_false]
      exact ⟨_, _, _, rfl, rfl, rfl⟩
  · intro db t
    exact ⟨_, _, rfl, rfl⟩

/-- Witness for the C9 amended theorem: paying `u1` with status "SUCCESS"
stores "success"; the schema default is "success"; the log variant run
on the same input stores it verbatim. -/
theorem record_status_normalization_witness :
    (∃ log tot db', pay dbOneUser ⟨"u1", 7, "ERC20", "0xw", "SUCCESS"⟩ "0xh" =
        .ok (log, tot, db') ∧
      log.status = payStatusNorm "SUCCESS" ∧
      db'.txlogs = dbOneUser.txlogs ++ [log])
  ∧ ({ user_id := "u1", amount := 7, network := "ERC20" } : PayIn).status = "success"
  ∧ (∃ log db', create_tx dbOneUser txUpper = .ok (log, db') ∧ log.status = txUpper.status) :=
  ⟨record_status_normalization.1 dbOneUser ⟨"u1", 7, "ERC20", "0xw", "SUCCESS"⟩ "0xh"
      userU1 (by decide) (by norm_num),
   record_status_normalization.2.1 "u1" 7 "ERC20",
   record_status_normalization.2.2 dbOneUser txUpper⟩

/-! ### C10 -/

/-- C10: in the pay variant the existence check precedes the amount check:
an unknown `user_id` yields 404 NotFound whatever the amount (so NotFound
takes precedence over InvalidArgument), and nothing is persisted. -/
theorem pay_notfound_precedes_amount_check (db : DB) (p : PayIn) (hash : String)
    (h : findUser db p.user_id = none) :
    pay db p hash = .error ⟨404, "User not found"⟩ ∧
    payDBAfter db (pay db p hash) = db := by
  simp only [findUser] at h
  refine ⟨?_, ?_⟩ <;> simp [pay, h, payDBAfter]

/-- Witness for C10: paying an unknown user with a NEGATIVE amount (-3):
the call still fails 404, not 400. -/
theorem pay_notfound_precedes_amount_check_witness :
    pay emptyDB ⟨"ghost", -3, "ERC20", "", "success"⟩ "0xh" =
        .error ⟨404, "User not found"⟩ ∧
    payDBAfter emptyDB (pay emptyDB ⟨"ghost", -3, "ERC20", "", "success"⟩ "0xh") = emptyDB :=
  pay_notfound_precedes_amount_check emptyDB ⟨"ghost", -3, "ERC20", "", "success"⟩ "0xh"
    (by decide)
